import Mathlib

/-
Verification of examples/whisper.py: shallow embedding of the transformer
components (MultiHeadAttention, ResidualAttentionBlock, TextDecoder), the
feature-extraction front end (prep_audio), and the streaming decode loop in
main().

Modelling conventions:
- Scalars are rationals.  The transcendental numeric primitives of the source
  (softmax, gelu, the layer-norm row normalisation, the scale factor
  (n_state // n_head) ** -0.25, log10, and the external librosa STFT and mel
  filter bank) are taken as explicit function parameters, since they are not
  rational-valued; every claim below is independent of their values.
- A rank-3 or rank-4 float tensor is a record of its dimension sizes and a
  total index function, so that shape propagation is a provable statement
  rather than a typing artifact.  The floating value float("-inf") used by
  the decoder mask is an explicit parameter negInf.
- The streaming loop of main() is modelled as an explicit state machine:
  one record per Python local, one Lean definition per loop body.
-/

/-- A rank-2 tensor: two dimension sizes and a total value function. -/
structure Tensor2 where
  d0 : Nat
  d1 : Nat
  v : Nat → Nat → ℚ

/-- A rank-3 tensor: three dimension sizes and a total value function. -/
structure Tensor3 where
  d0 : Nat
  d1 : Nat
  d2 : Nat
  v : Nat → Nat → Nat → ℚ

/-- A rank-4 tensor: four dimension sizes and a total value function. -/
structure Tensor4 where
  d0 : Nat
  d1 : Nat
  d2 : Nat
  d3 : Nat
  v : Nat → Nat → Nat → Nat → ℚ

/-- Elementwise addition of two rank-3 tensors of equal shape (the result
carries the left operand's dimensions, as tinygrad broadcasting does for
equal shapes). -/
def Tensor3.add (x y : Tensor3) : Tensor3 :=
  ⟨x.d0, x.d1, x.d2, fun b t j => x.v b t j + y.v b t j⟩

/-- Elementwise map over a rank-3 tensor (used for Tensor.gelu). -/
def Tensor3.map (f : ℚ → ℚ) (x : Tensor3) : Tensor3 :=
  ⟨x.d0, x.d1, x.d2, fun b t j => f (x.v b t j)⟩

/-- mask[:n, :n] — slicing the first two axes of a rank-4 tensor, as in
qkv_attention's `mask[:n_ctx, :n_ctx]`.  Values are unchanged; only the
first two dimension sizes are clamped. -/
def Tensor4.slice01 (m : Tensor4) (n : Nat) : Tensor4 :=
  ⟨min m.d0 n, min m.d1 n, m.d2, m.d3, m.v⟩

/-- Broadcasting addition of a rank-4 tensor: axes of size 1 in the right
operand are broadcast (indexed at 0), as numpy/tinygrad do when adding the
(1, 1, seqlen, seqlen) mask to the (batch, heads, seqlen, seqlen) scores. -/
def Tensor4.addB (x m : Tensor4) : Tensor4 :=
  ⟨x.d0, x.d1, x.d2, x.d3, fun b h i j =>
    x.v b h i j +
      m.v (if m.d0 = 1 then 0 else b) (if m.d1 = 1 then 0 else h)
        (if m.d2 = 1 then 0 else i) (if m.d3 = 1 then 0 else j)⟩

/-- nn.Linear: weight of shape (outF, inF) and an optional additive bias
(bias=False in the source gives none). -/
structure LinearT where
  inF : Nat
  outF : Nat
  weight : Nat → Nat → ℚ
  bias : Option (Nat → ℚ)

/-- Applying nn.Linear along the last axis of a rank-3 tensor:
y = x @ weight.T + bias. -/
def LinearT.apply3 (l : LinearT) (x : Tensor3) : Tensor3 :=
  ⟨x.d0, x.d1, l.outF, fun b t o =>
    (∑ i ∈ Finset.range l.inF, x.v b t i * l.weight o i) +
      (match l.bias with
        | some bf => bf o
        | none => 0)⟩

/-- nn.LayerNorm applied along the last axis.  The row normalisation
(x - mean) / sqrt(var + eps) * w + b involves a square root, so the whole
row map is kept as an abstract function; each LayerNorm instance of the
source is one value of this type. -/
structure LayerNormT where
  normalize : (Nat → ℚ) → Nat → ℚ

/-- Apply a LayerNorm instance to every (batch, position) row of a rank-3
tensor. -/
def LayerNormT.apply (ln : LayerNormT) (x : Tensor3) : Tensor3 :=
  ⟨x.d0, x.d1, x.d2, fun b t => ln.normalize (x.v b t)⟩

/-- nn.Embedding: vocabulary size, embedding width, and the weight table. -/
structure EmbeddingT where
  n_vocab : Nat
  n_state : Nat
  weight : Nat → Nat → ℚ

/-- np.full((d0, d1, d2, d3), c): a rank-4 tensor filled with one constant. -/
def npFull4 (d0 d1 d2 d3 : Nat) (c : ℚ) : Tensor4 :=
  ⟨d0, d1, d2, d3, fun _ _ _ _ => c⟩

/-- np.triu(m, k) on the last two axes of a rank-4 tensor: entries with
j - i >= k are kept, entries below that diagonal are zeroed. -/
def npTriu4 (m : Tensor4) (k : ℤ) : Tensor4 :=
  ⟨m.d0, m.d1, m.d2, m.d3, fun b h i j =>
    if k ≤ (j : ℤ) - (i : ℤ) then m.v b h i j else 0⟩

/-- The causal mask built inside TextDecoder.__call__ (lines 103-107):
start_pos = 0, mask = np.triu(np.full((1, 1, seqlen, start_pos + seqlen),
float("-inf")), k=start_pos + 1).  negInf stands for float("-inf"). -/
def decoderMask (negInf : ℚ) (seqlen : Nat) : Tensor4 :=
  npTriu4 (npFull4 1 1 seqlen (0 + seqlen) negInf) (0 + 1)

/-- The four learned linear-map parameter sets of one MultiHeadAttention
instance (weights and, where present, biases), as loaded into the module. -/
structure MHAParams where
  qw : Nat → Nat → ℚ
  qb : Nat → ℚ
  kw : Nat → Nat → ℚ
  vw : Nat → Nat → ℚ
  vb : Nat → ℚ
  ow : Nat → Nat → ℚ
  ob : Nat → ℚ

/-- class MultiHeadAttention (whisper.py lines 29-54): head count and the
four nn.Linear projections. -/
structure MultiHeadAttention where
  n_head : Nat
  query : LinearT
  key : LinearT
  value : LinearT
  out : LinearT

/-- MultiHeadAttention.__init__: query/value/out are nn.Linear(n_state,
n_state) with a bias, key is nn.Linear(n_state, n_state, bias=False). -/
def MultiHeadAttention.init (n_state n_head : Nat) (p : MHAParams) :
    MultiHeadAttention :=
  ⟨n_head,
    ⟨n_state, n_state, p.qw, some p.qb⟩,
    ⟨n_state, n_state, p.kw, none⟩,
    ⟨n_state, n_state, p.vw, some p.vb⟩,
    ⟨n_state, n_state, p.ow, some p.ob⟩⟩

/-- MultiHeadAttention.qkv_attention (lines 45-54).  sm n is softmax over a
row of length n (the last axis); sc d is the abstract scale factor
d ** -0.25 with d = n_state // n_head taken from q's shape.  Mirrors the
source: reshape to heads, permute, scale q and k, q @ k, add the sliced
mask if present, softmax over the last axis, multiply by v, permute back
and flatten, returning the pair (w @ v flattened, masked scores). -/
def MultiHeadAttention.qkv_attention (sm : Nat → (Nat → ℚ) → Nat → ℚ)
    (sc : Nat → ℚ) (m : MultiHeadAttention) (q k v : Tensor3)
    (mask : Option Tensor4) : Tensor3 × Tensor4 :=
  let n_ctx := q.d1
  let n_state := q.d2
  let scale := sc (n_state / m.n_head)
  let q4 : Tensor4 := ⟨q.d0, m.n_head, q.d1, q.d2 / m.n_head,
    fun b h t d => q.v b t (h * (q.d2 / m.n_head) + d) * scale⟩
  let k4 : Tensor4 := ⟨k.d0, m.n_head, k.d2 / m.n_head, k.d1,
    fun b h d t => k.v b t (h * (k.d2 / m.n_head) + d) * scale⟩
  let v4 : Tensor4 := ⟨v.d0, m.n_head, v.d1, v.d2 / m.n_head,
    fun b h t d => v.v b t (h * (v.d2 / m.n_head) + d)⟩
  let qk : Tensor4 := ⟨q4.d0, q4.d1, q4.d2, k4.d3,
    fun b h i j => ∑ d ∈ Finset.range q4.d3, q4.v b h i d * k4.v b h d j⟩
  let qkm : Tensor4 :=
    match mask with
    | some msk => Tensor4.addB qk (Tensor4.slice01 msk n_ctx)
    | none => qk
  let w : Tensor4 := ⟨qkm.d0, qkm.d1, qkm.d2, qkm.d3,
    fun b h i => sm qkm.d3 (qkm.v b h i)⟩
  let wv : Tensor4 := ⟨w.d0, w.d1, w.d2, v4.d3,
    fun b h i d => ∑ j ∈ Finset.range w.d3, w.v b h i j * v4.v b h j d⟩
  (⟨wv.d0, wv.d2, wv.d1 * wv.d3,
    fun b t s => wv.v b (s / wv.d3) t (s % wv.d3)⟩, qkm)

/-- MultiHeadAttention.__call__ (lines 37-43): q from x, k and v from
(xa or x) — the encoder memory for cross-attention, x itself for
self-attention — then the output projection of the attention result. -/
def MultiHeadAttention.call (sm : Nat → (Nat → ℚ) → Nat → ℚ) (sc : Nat → ℚ)
    (m : MultiHeadAttention) (x : Tensor3) (xa : Option Tensor3)
    (mask : Option Tensor4) : Tensor3 :=
  let q := LinearT.apply3 m.query x
  let k := LinearT.apply3 m.key (xa.getD x)
  let v := LinearT.apply3 m.value (xa.getD x)
  LinearT.apply3 m.out (MultiHeadAttention.qkv_attention sm sc m q k v mask).1

/-- The learned parameters of one ResidualAttentionBlock: the two attention
parameter sets, the three layer norms, and the two mlp linear layers. -/
structure BlockParams where
  attnP : MHAParams
  attn_lnP : LayerNormT
  crossP : MHAParams
  cross_lnP : LayerNormT
  mlp0w : Nat → Nat → ℚ
  mlp0b : Nat → ℚ
  mlp2w : Nat → Nat → ℚ
  mlp2b : Nat → ℚ
  mlp_lnP : LayerNormT

/-- class ResidualAttentionBlock (lines 56-71).  mlp0 and mlp2 are the two
nn.Linear layers of self.mlp = [Linear(n, 4n), gelu, Linear(4n, n)]. -/
structure ResidualAttentionBlock where
  attn : MultiHeadAttention
  attn_ln : LayerNormT
  cross_attn : Option MultiHeadAttention
  cross_attn_ln : Option LayerNormT
  mlp0 : LinearT
  mlp2 : LinearT
  mlp_ln : LayerNormT

/-- ResidualAttentionBlock.__init__: the cross-attention module and its
layer norm exist exactly when cross_attention=True; the mlp expands
n_state to n_state*4 and back. -/
def ResidualAttentionBlock.init (n_state n_head : Nat)
    (cross_attention : Bool) (p : BlockParams) : ResidualAttentionBlock :=
  ⟨MultiHeadAttention.init n_state n_head p.attnP,
    p.attn_lnP,
    if cross_attention then some (MultiHeadAttention.init n_state n_head p.crossP) else none,
    if cross_attention then some p.cross_lnP else none,
    ⟨n_state, n_state * 4, p.mlp0w, some p.mlp0b⟩,
    ⟨n_state * 4, n_state, p.mlp2w, some p.mlp2b⟩,
    p.mlp_lnP⟩

/-- ResidualAttentionBlock.__call__ (lines 67-71): pre-norm self-attention
with residual, then (when present) pre-norm cross-attention into xa with no
mask and residual, then the pre-norm mlp with residual. -/
def ResidualAttentionBlock.call (sm : Nat → (Nat → ℚ) → Nat → ℚ)
    (sc : Nat → ℚ) (geluQ : ℚ → ℚ) (b : ResidualAttentionBlock)
    (x : Tensor3) (xa : Option Tensor3) (mask : Option Tensor4) : Tensor3 :=
  let x1 := Tensor3.add x
    (MultiHeadAttention.call sm sc b.attn (LayerNormT.apply b.attn_ln x) none mask)
  let x2 :=
    match b.cross_attn, b.cross_attn_ln with
    | some ca, some cln =>
        Tensor3.add x1 (MultiHeadAttention.call sm sc ca (LayerNormT.apply cln x1) xa none)
    | _, _ => x1
  Tensor3.add x2
    (LinearT.apply3 b.mlp2 (Tensor3.map geluQ (LinearT.apply3 b.mlp0 (LayerNormT.apply b.mlp_ln x2))))

/-- An integer-valued rank-2 tensor: the token-id input Tensor([lst]) of the
decoder, shape (batch, seqlen). -/
structure TokTensor2 where
  d0 : Nat
  d1 : Nat
  v : Nat → Nat → Nat

/-- class TextDecoder (lines 90-114): token embedding, positional embedding
table, cross-attending blocks, final layer norm, and the (unused)
temperature constant.  There is no separate output-projection parameter. -/
structure TextDecoder where
  token_embedding : EmbeddingT
  positional_embedding : Nat → Nat → ℚ
  blocks : List ResidualAttentionBlock
  ln : LayerNormT
  temperature : ℚ

/-- TextDecoder.__init__: the blocks are ResidualAttentionBlock instances
with cross_attention=True, one per entry of the loaded per-layer parameter
list; temperature = 2. -/
def TextDecoder.init (n_vocab n_text_ctx n_text_state n_text_head : Nat)
    (embW : Nat → Nat → ℚ) (posW : Nat → Nat → ℚ) (bps : List BlockParams)
    (lnD : LayerNormT) : TextDecoder :=
  ⟨⟨n_vocab, n_text_state, embW⟩, posW,
    bps.map (fun p => ResidualAttentionBlock.init n_text_state n_text_head true p),
    lnD, 2⟩

/-- The body of TextDecoder.__call__ up to and including the final layer
norm (lines 100-110): token embedding plus the positional embedding sliced
from offset 0 to the prefix length, the causal mask sized to seqlen =
x.shape[1], the block stack, then self.ln. -/
def TextDecoder.hidden (sm : Nat → (Nat → ℚ) → Nat → ℚ) (sc : Nat → ℚ)
    (geluQ : ℚ → ℚ) (negInf : ℚ) (d : TextDecoder) (x : TokTensor2)
    (xa : Tensor3) : Tensor3 :=
  let e : Tensor3 := ⟨x.d0, x.d1, d.token_embedding.n_state,
    fun b t j => d.token_embedding.weight (x.v b t) j + d.positional_embedding t j⟩
  let seqlen := e.d1
  let mask := decoderMask negInf seqlen
  LayerNormT.apply d.ln
    (d.blocks.foldl (fun acc blk => ResidualAttentionBlock.call sm sc geluQ blk acc (some xa) (some mask)) e)

/-- TextDecoder.__call__ (lines 99-114): the hidden states followed by the
weight-tied vocabulary projection x @ self.token_embedding.weight.T. -/
def TextDecoder.call (sm : Nat → (Nat → ℚ) → Nat → ℚ) (sc : Nat → ℚ)
    (geluQ : ℚ → ℚ) (negInf : ℚ) (d : TextDecoder) (x : TokTensor2)
    (xa : Tensor3) : Tensor3 :=
  let h := TextDecoder.hidden sm sc geluQ negInf d x xa
  ⟨h.d0, h.d1, d.token_embedding.n_vocab,
    fun b t u => ∑ j ∈ Finset.range h.d2, h.v b t j * d.token_embedding.weight u j⟩

/-- Replace one row of a weight table (used to state the weight-tying
claim: one edit to the embedding table). -/
def updRow (w : Nat → Nat → ℚ) (v0 : Nat) (r : Nat → ℚ) : Nat → Nat → ℚ :=
  fun t j => if t = v0 then r j else w t j

/-- Batched rank-2 matrix product A @ B (contraction over A's second
axis), used for librosa.filters.mel(...) @ magnitudes. -/
def matmul2 (a b : Tensor2) : Tensor2 :=
  ⟨a.d0, b.d1, fun i j => ∑ t ∈ Finset.range a.d1, a.v i t * b.v t j⟩

/-- np.clip(x, lo, hi) on one scalar. -/
def clipQ (x lo hi : ℚ) : ℚ := min (max x lo) hi

/-- mel_spec.max(): the maximum entry of a rank-2 tensor (numpy's max over
all elements; the fold starts from the (0,0) entry, matching numpy on the
nonempty tensors this program produces). -/
def maxEntry (a : Tensor2) : ℚ :=
  (List.range a.d0).foldl
    (fun m i => (List.range a.d1).foldl (fun m2 j => max m2 (a.v i j)) m)
    (a.v 0 0)

/-- prep_audio (whisper.py lines 124-136).  stftFn models librosa.stft
(waveform, n_fft, hop -> coefficient grid of shape (freq bins, frames);
the complex modulus is folded into this external primitive) and melFn
models librosa.filters.mel (sr, n_fft, n_mels -> filter bank); log10Q
models np.log10.  When waveform is None a zero waveform of N_FFT = 400
samples is substituted.  magnitudes drops the last frame and squares;
the log-mel result is clipped to [1e-10, max + 1e8], log-compressed,
affinely normalized, and given a leading batch axis of size 1. -/
def prep_audio (stftFn : List ℚ → Nat → Nat → Tensor2)
    (melFn : Nat → Nat → Nat → Tensor2) (log10Q : ℚ → ℚ)
    (waveform : Option (List ℚ)) (sr : Nat) : Tensor3 :=
  let N_FFT := 400
  let HOP_LENGTH := 160
  let N_MELS := 80
  let w : List ℚ :=
    match waveform with
    | none => List.replicate N_FFT (0 : ℚ)
    | some wv => wv
  let stft := stftFn w N_FFT HOP_LENGTH
  let magnitudes : Tensor2 := ⟨stft.d0, stft.d1 - 1, fun i j => stft.v i j ^ 2⟩
  let mel_spec := matmul2 (melFn sr N_FFT N_MELS) magnitudes
  let mx := maxEntry mel_spec
  let log_spec : Tensor2 := ⟨mel_spec.d0, mel_spec.d1,
    fun i j => log10Q (clipQ (mel_spec.v i j) (1 / 10 ^ 10) (mx + 10 ^ 8))⟩
  let log_spec2 : Tensor2 := ⟨log_spec.d0, log_spec.d1,
    fun i j => (log_spec.v i j + 4) / 4⟩
  ⟨1, log_spec2.d0, log_spec2.d1, fun _ i j => log_spec2.v i j⟩

/-- The special marker string checked by the loop-exit test
`"<|endoftext|>" in text`, as a character list. -/
def eotText : List Char := "<|endoftext|>".data

/-- pat is at the head of s (character-by-character). -/
def leadsWith : List Char → List Char → Bool
  | [], _ => true
  | _ :: _, [] => false
  | a :: as, b :: bs => a = b && leadsWith as bs

/-- Python's substring test `pat in s` on character lists. -/
def containsSub (pat s : List Char) : Bool :=
  (List.range (s.length + 1)).any (fun i => leadsWith pat (s.drop i))

/-- numpy argmax over the first n entries of a vector: the index of the
first occurrence of the maximum (strict improvement moves the index). -/
def argmaxIdx (n : Nat) (f : Nat → ℚ) : Nat :=
  (List.range n).foldl (fun best i => if f best < f i then i else best) 0

/-- Tensor([lst]): the decoder's token input of shape (1, len(lst)). -/
def tokTensor (lst : List Nat) : TokTensor2 :=
  ⟨1, lst.length, fun _ t => lst.getD t 0⟩

/-- The fixed environment of one pass of the streaming loop in main(): the
abstract numeric primitives, the loaded decoder and the phrase's encoder
memory (encoded_audio, computed once before the loop), the external
tokenizer's decode function, the start-of-transcript token id, the
wall-clock time phrase_time recorded at the queue poll that consumed this
phrase's audio, the phrase_timeout configuration, and timeAt k — the value
returned by time.time() at the k-th per-token loop-exit check. -/
structure LoopEnv where
  sm : Nat → (Nat → ℚ) → Nat → ℚ
  sc : Nat → ℚ
  geluQ : ℚ → ℚ
  negInf : ℚ
  dcd : TextDecoder
  encoded_audio : Tensor3
  encDecode : List Nat → List Char
  sot : Nat
  phrase_time : ℚ
  phrase_timeout : ℚ
  timeAt : Nat → ℚ

/-- idx = int(decoded_text[0, -1].argmax()) (line 339): argmax over the
vocabulary axis of the last position's logits of the full-prefix decoder
call. -/
def nextTok (E : LoopEnv) (lst : List Nat) : Nat :=
  argmaxIdx E.dcd.token_embedding.n_vocab
    (fun u =>
      (TextDecoder.call E.sm E.sc E.geluQ E.negInf E.dcd (tokTensor lst) E.encoded_audio).v
        0 (lst.length - 1) u)

/-- The decode-loop state: the Python locals lst (the TokenSequence), text
(the most recent full-sequence decoded text), phrase_complete, last_sample
(the raw-sample buffer), and k, the number of decode steps taken so far
(used to index the successive time.time() calls). -/
structure PhraseState where
  lst : List Nat
  text : List Char
  phrase_complete : Bool
  last_sample : Option (List Nat)
  k : Nat

/-- The per-phrase initialisation (lines 313 and 335): phrase_complete =
False and lst = [enc._special_tokens["<|startoftranscript|>"]].  prevText
is the residual value of the Python local text from the previous phrase
(on the very first phrase that local is unbound); buf is the raw-sample
buffer accumulated by the queue drain. -/
def phraseInit (E : LoopEnv) (prevText : List Char) (buf : Option (List Nat)) :
    PhraseState :=
  ⟨[E.sot], prevText, false, buf, 0⟩

/-- One iteration of `while not phrase_complete` (lines 336-352, no
interrupt): decode the full prefix, append the argmax token, decode the
full TokenSequence to text, then check
`time.time() - phrase_time > phrase_timeout or "<|endoftext|>" in text`;
when the check fires, set phrase_complete and clear last_sample. -/
def decodeStep (E : LoopEnv) (s : PhraseState) : PhraseState :=
  let idx := nextTok E s.lst
  let lst := s.lst ++ [idx]
  let text := E.encDecode lst
  if decide (E.phrase_timeout < E.timeAt s.k - E.phrase_time) || containsSub eotText text then
    ⟨lst, text, true, none, s.k + 1⟩
  else
    ⟨lst, text, false, s.last_sample, s.k + 1⟩

/-- n successive decode-loop iterations, ignoring the loop guard (used to
speak about the state after the k-th step of an open phrase). -/
def decodeSteps (E : LoopEnv) : Nat → PhraseState → PhraseState
  | 0, s => s
  | n + 1, s => decodeSteps E n (decodeStep E s)

/-- The guarded loop `while not phrase_complete` with a step budget: a
completed state stops the iteration. -/
def phraseLoop (E : LoopEnv) : Nat → PhraseState → PhraseState
  | 0, s => s
  | fuel + 1, s => if s.phrase_complete then s else phraseLoop E fuel (decodeStep E s)

/-- The guarded loop under an external KeyboardInterrupt schedule: when the
interrupt arrives during iteration number s.k, the inner
`except KeyboardInterrupt: break` (lines 354-355) exits the loop at the
token boundary with the state unchanged. -/
def phraseLoopIntr (E : LoopEnv) (intr : Nat → Bool) :
    Nat → PhraseState → PhraseState
  | 0, s => s
  | fuel + 1, s =>
      if s.phrase_complete then s
      else if intr s.k then s
      else phraseLoopIntr E intr fuel (decodeStep E s)

/-- transcription[-1] = text: replace the last element of a nonempty list. -/
def updateLast (l : List (List Char)) (a : List Char) : List (List Char) :=
  l.set (l.length - 1) a

/-- The post-loop transcript update (lines 359-362):
if phrase_complete: transcription.append(text)
else: transcription[-1] = text. -/
def commitTranscript (transcription : List (List Char)) (s : PhraseState) :
    List (List Char) :=
  if s.phrase_complete then transcription ++ [s.text]
  else updateLast transcription s.text

/-- The decode-loop state together with the transcription list, to state
what the loop body does (and does not do) to the Transcript. -/
structure FullState where
  ps : PhraseState
  transcription : List (List Char)

/-- One loop-body iteration viewed on the full state: the body (lines
337-352) assigns lst, text, phrase_complete, and last_sample, and never
touches transcription (the per-step text is only printed, line 344). -/
def fullStep (E : LoopEnv) (s : FullState) : FullState :=
  ⟨decodeStep E s.ps, s.transcription⟩

/-- The loop-exit condition of line 350, as one boolean:
time.time() - phrase_time > phrase_timeout or "<|endoftext|>" in text,
evaluated on the text decoded from this step's extended TokenSequence. -/
def stepCond (E : LoopEnv) (s : PhraseState) : Bool :=
  decide (E.phrase_timeout < E.timeAt s.k - E.phrase_time)
    || containsSub eotText (E.encDecode (s.lst ++ [nextTok E s.lst]))

/-- The specification's feedForward: a two-layer linear map with a GELU
nonlinearity between the layers (spec section 4.2). -/
def feedForwardSpec (geluQ : ℚ → ℚ) (l1 l2 : LinearT) (x : Tensor3) : Tensor3 :=
  LinearT.apply3 l2 (Tensor3.map geluQ (LinearT.apply3 l1 x))

/-- The ResidualBlock contract as the specification words it (section 4.2):
x1 = x + attend(layerNorm(x), mask); if cross-attention is present,
x2 = x1 + attend(layerNorm(x1), crossMemory) with no mask; result =
x2 + feedForward(layerNorm(x2)).  Stated with the same attention and
layer-norm primitives so that only the composition is at issue. -/
def residualBlockSpecApply (sm : Nat → (Nat → ℚ) → Nat → ℚ) (sc : Nat → ℚ)
    (geluQ : ℚ → ℚ) (selfAttn : MultiHeadAttention) (lnSelf : LayerNormT)
    (crossAttn : Option MultiHeadAttention) (lnCross : LayerNormT)
    (l1 l2 : LinearT) (lnMlp : LayerNormT) (x : Tensor3)
    (crossMemory : Option Tensor3) (mask : Option Tensor4) : Tensor3 :=
  let x1 := Tensor3.add x
    (MultiHeadAttention.call sm sc selfAttn (LayerNormT.apply lnSelf x) none mask)
  let x2 :=
    match crossAttn with
    | some ca =>
        Tensor3.add x1 (MultiHeadAttention.call sm sc ca (LayerNormT.apply lnCross x1) crossMemory none)
    | none => x1
  Tensor3.add x2 (feedForwardSpec geluQ l1 l2 (LayerNormT.apply lnMlp x2))

/-- An identity row normalisation, used to build small concrete decoder
instances for counterexample runs. -/
def lnId : LayerNormT := ⟨fun f => f⟩

/-- A concrete one-token-vocabulary, width-1, zero-weight, zero-layer
TextDecoder; every decode step of it emits token 0. -/
def decTiny : TextDecoder :=
  TextDecoder.init 1 0 1 1 (fun _ _ => 0) (fun _ _ => 0) [] lnId

/-- A concrete (1, 1, 1) encoder-memory tensor for counterexample runs. -/
def memTiny : Tensor3 := ⟨1, 1, 1, fun _ _ _ => 0⟩

/-- Concrete loop environment A: the tokenizer decodes the two-token
sequence to "a", the clock never advances (time.time() = 0, phrase_time
= 0, phrase_timeout = 1), so the phrase stays open. -/
def envA : LoopEnv :=
  ⟨fun _ f => f, fun _ => 1, fun q => q, -1, decTiny, memTiny,
    (fun l => if l.length = 2 then ['a'] else []), 5, 0, 1, fun _ => 0⟩

/-- Concrete loop environment B: the tokenizer always returns the
end-of-transcript marker, so the first decode step completes the phrase. -/
def envB : LoopEnv :=
  ⟨fun _ f => f, fun _ => 1, fun q => q, -1, decTiny, memTiny,
    (fun _ => eotText), 5, 0, 1, fun _ => 0⟩

/-- Concrete loop environment C: same tokenizer as environment A, but the
clock reads 10 at every check, so the first decode step completes the
phrase by timeout (10 - 0 > 1) with text "a". -/
def envC : LoopEnv :=
  ⟨fun _ f => f, fun _ => 1, fun q => q, -1, decTiny, memTiny,
    (fun l => if l.length = 2 then ['a'] else []), 5, 0, 1, fun _ => 10⟩

/-- A concrete (1, 1, 2)-shaped query tensor for the attend witness. -/
def cxT : Tensor3 := ⟨1, 1, 2, fun _ _ _ => 0⟩

/-- Concrete zero parameters for one MultiHeadAttention instance. -/
def cpP : MHAParams :=
  ⟨fun _ _ => 0, fun _ => 0, fun _ _ => 0, fun _ _ => 0, fun _ => 0,
    fun _ _ => 0, fun _ => 0⟩

/-- Dimension preservation of one ResidualAttentionBlock application: the
output tensor has the input's shape. -/
theorem ResidualAttentionBlock.call_dims (sm : Nat → (Nat → ℚ) → Nat → ℚ)
    (sc : Nat → ℚ) (geluQ : ℚ → ℚ) (b : ResidualAttentionBlock)
    (x : Tensor3) (xa : Option Tensor3) (mask : Option Tensor4) :
    (ResidualAttentionBlock.call sm sc geluQ b x xa mask).d0 = x.d0
    ∧ (ResidualAttentionBlock.call sm sc geluQ b x xa mask).d1 = x.d1
    ∧ (ResidualAttentionBlock.call sm sc geluQ b x xa mask).d2 = x.d2 := by
  obtain ⟨attn, attn_ln, ca, cln, m0, m2, mlpln⟩ := b
  cases ca <;> cases cln <;> exact ⟨rfl, rfl, rfl⟩

/-- Dimension preservation of the decoder's block stack fold. -/
theorem foldBlocks_dims (sm : Nat → (Nat → ℚ) → Nat → ℚ) (sc : Nat → ℚ)
    (geluQ : ℚ → ℚ) (xa : Option Tensor3) (mask : Option Tensor4) :
    ∀ (blks : List ResidualAttentionBlock) (acc : Tensor3),
      ((blks.foldl (fun a blk => ResidualAttentionBlock.call sm sc geluQ blk a xa mask) acc).d0 = acc.d0
      ∧ (blks.foldl (fun a blk => ResidualAttentionBlock.call sm sc geluQ blk a xa mask) acc).d1 = acc.d1
      ∧ (blks.foldl (fun a blk => ResidualAttentionBlock.call sm sc geluQ blk a xa mask) acc).d2 = acc.d2) := by
  intro blks
  induction blks with
  | nil => intro acc; exact ⟨rfl, rfl, rfl⟩
  | cons hd tl ih =>
      intro acc
      have hc := ResidualAttentionBlock.call_dims sm sc geluQ hd acc xa mask
      have ht := ih (ResidualAttentionBlock.call sm sc geluQ hd acc xa mask)
      simp only [List.foldl_cons]
      exact ⟨ht.1.trans hc.1, ht.2.1.trans hc.2.1, ht.2.2.trans hc.2.2⟩

/-- The decoder's hidden states have last dimension equal to the embedding
width n_state, whatever the block list is. -/
theorem TextDecoder.hidden_d2 (sm : Nat → (Nat → ℚ) → Nat → ℚ) (sc : Nat → ℚ)
    (geluQ : ℚ → ℚ) (negInf : ℚ) (d : TextDecoder) (x : TokTensor2) (xa : Tensor3) :
    (TextDecoder.hidden sm sc geluQ negInf d x xa).d2 = d.token_embedding.n_state :=
  (foldBlocks_dims sm sc geluQ (some xa) (some (decoderMask negInf x.d1)) d.blocks
    ⟨x.d0, x.d1, d.token_embedding.n_state,
      fun b t j => d.token_embedding.weight (x.v b t) j + d.positional_embedding t j⟩).2.2

/-- C3: each decoder call builds an additive causal mask of shape
(1, 1, n, n) for the current prefix length n, whose (i, j) entry is
float("-inf") when j > i and zero otherwise, so no position can attend to
a later position. -/
theorem c3_causal_mask (negInf : ℚ) (n : Nat) :
    (decoderMask negInf n).d0 = 1 ∧ (decoderMask negInf n).d1 = 1
    ∧ (decoderMask negInf n).d2 = n ∧ (decoderMask negInf n).d3 = n
    ∧ (∀ i j : Nat, (decoderMask negInf n).v 0 0 i j = if i < j then negInf else 0) := by
  refine ⟨rfl, rfl, rfl, Nat.zero_add n, ?_⟩
  intro i j
  simp only [decoderMask, npTriu4, npFull4]
  by_cases h : i < j
  · rw [if_pos, if_pos h]; omega
  · rw [if_neg, if_neg h]; omega

/-- C10: prep_audio called with no waveform substitutes a zero waveform of
exactly N_FFT = 400 samples and returns the log-mel result of that silence
with a leading batch dimension of size 1, instead of failing. -/
theorem c10_prep_audio_default (stftFn : List ℚ → Nat → Nat → Tensor2)
    (melFn : Nat → Nat → Nat → Tensor2) (log10Q : ℚ → ℚ) (sr : Nat) :
    prep_audio stftFn melFn log10Q none sr
      = prep_audio stftFn melFn log10Q (some (List.replicate 400 (0 : ℚ))) sr
    ∧ (prep_audio stftFn melFn log10Q none sr).d0 = 1 :=
  ⟨rfl, rfl⟩

/-- C5: a ResidualAttentionBlock computes exactly the specification's
composition — pre-norm self-attention with residual, then (when built with
cross-attention) pre-norm unmasked cross-attention into the memory with
residual, then the pre-norm feed-forward (width to 4x width, GELU, back to
width) with residual. -/
theorem c5_residual_block (S H : Nat) (p : BlockParams)
    (sm : Nat → (Nat → ℚ) → Nat → ℚ) (sc : Nat → ℚ) (geluQ : ℚ → ℚ)
    (x xa : Tensor3) (mask : Option Tensor4) :
    ResidualAttentionBlock.call sm sc geluQ (ResidualAttentionBlock.init S H true p) x (some xa) mask
      = residualBlockSpecApply sm sc geluQ (MultiHeadAttention.init S H p.attnP) p.attn_lnP
          (some (MultiHeadAttention.init S H p.crossP)) p.cross_lnP
          (ResidualAttentionBlock.init S H true p).mlp0
          (ResidualAttentionBlock.init S H true p).mlp2
          p.mlp_lnP x (some xa) mask
    ∧ ResidualAttentionBlock.call sm sc geluQ (ResidualAttentionBlock.init S H false p) x (some xa) mask
      = residualBlockSpecApply sm sc geluQ (MultiHeadAttention.init S H p.attnP) p.attn_lnP
          none p.cross_lnP
          (ResidualAttentionBlock.init S H false p).mlp0
          (ResidualAttentionBlock.init S H false p).mlp2
          p.mlp_lnP x (some xa) mask
    ∧ (ResidualAttentionBlock.init S H true p).mlp0.inF = S
    ∧ (ResidualAttentionBlock.init S H true p).mlp0.outF = S * 4
    ∧ (ResidualAttentionBlock.init S H true p).mlp2.inF = S * 4
    ∧ (ResidualAttentionBlock.init S H true p).mlp2.outF = S :=
  ⟨rfl, rfl, rfl, rfl, rfl, rfl⟩

/-- C4: the TextDecoder's vocabulary projection is the transpose of its
token embedding table (weight tying, no separate output projection
parameter): the logits equal the post-layer-norm hidden states multiplied
by the embedding matrix transposed, the lookup table of the built decoder
is that same matrix, and replacing one embedding row r at index v0 changes
the lookup of v0 to r and makes vocabulary entry v0's logits the dot
product of the hidden states with r — the same single parameter serving
both roles. -/
theorem c4_weight_tying (V ctx S H : Nat) (embW posW : Nat → Nat → ℚ)
    (bps : List BlockParams) (lnD : LayerNormT)
    (sm : Nat → (Nat → ℚ) → Nat → ℚ) (sc : Nat → ℚ) (geluQ : ℚ → ℚ) (negInf : ℚ)
    (x : TokTensor2) (xa : Tensor3) (r : Nat → ℚ) (v0 : Nat) :
    (∀ b p u : Nat,
      (TextDecoder.call sm sc geluQ negInf (TextDecoder.init V ctx S H embW posW bps lnD) x xa).v b p u
        = ∑ j ∈ Finset.range S,
            (TextDecoder.hidden sm sc geluQ negInf (TextDecoder.init V ctx S H embW posW bps lnD) x xa).v b p j
              * embW u j)
    ∧ (TextDecoder.init V ctx S H embW posW bps lnD).token_embedding.weight = embW
    ∧ (∀ j, (TextDecoder.init V ctx S H (updRow embW v0 r) posW bps lnD).token_embedding.weight v0 j = r j)
    ∧ (∀ b p : Nat,
      (TextDecoder.call sm sc geluQ negInf (TextDecoder.init V ctx S H (updRow embW v0 r) posW bps lnD) x xa).v b p v0
        = ∑ j ∈ Finset.range S,
            (TextDecoder.hidden sm sc geluQ negInf (TextDecoder.init V ctx S H (updRow embW v0 r) posW bps lnD) x xa).v b p j
              * r j) := by
  refine ⟨?_, rfl, ?_, ?_⟩
  · intro b p u
    have hd2 : (TextDecoder.hidden sm sc geluQ negInf (TextDecoder.init V ctx S H embW posW bps lnD) x xa).d2 = S :=
      TextDecoder.hidden_d2 sm sc geluQ negInf (TextDecoder.init V ctx S H embW posW bps lnD) x xa
    show ∑ j ∈ Finset.range (TextDecoder.hidden sm sc geluQ negInf (TextDecoder.init V ctx S H embW posW bps lnD) x xa).d2,
        (TextDecoder.hidden sm sc geluQ negInf (TextDecoder.init V ctx S H embW posW bps lnD) x xa).v b p j * embW u j
      = ∑ j ∈ Finset.range S,
          (TextDecoder.hidden sm sc geluQ negInf (TextDecoder.init V ctx S H embW posW bps lnD) x xa).v b p j * embW u j
    rw [hd2]
  · intro j
    simp [TextDecoder.init, updRow]
  · intro b p
    have hd2 : (TextDecoder.hidden sm sc geluQ negInf (TextDecoder.init V ctx S H (updRow embW v0 r) posW bps lnD) x xa).d2 = S :=
      TextDecoder.hidden_d2 sm sc geluQ negInf (TextDecoder.init V ctx S H (updRow embW v0 r) posW bps lnD) x xa
    show ∑ j ∈ Finset.range (TextDecoder.hidden sm sc geluQ negInf (TextDecoder.init V ctx S H (updRow embW v0 r) posW bps lnD) x xa).d2,
        (TextDecoder.hidden sm sc geluQ negInf (TextDecoder.init V ctx S H (updRow embW v0 r) posW bps lnD) x xa).v b p j
          * updRow embW v0 r v0 j
      = ∑ j ∈ Finset.range S,
          (TextDecoder.hidden sm sc geluQ negInf (TextDecoder.init V ctx S H (updRow embW v0 r) posW bps lnD) x xa).v b p j * r j
    rw [hd2]
    refine Finset.sum_congr rfl ?_
    intro j _
    simp [updRow]

/-- C9: for a valid query (last dimension equal to the layer width S, head
count dividing the width), attend returns a tensor of the query's shape;
the key projection has no additive bias while query and value do; with no
mask, the score at (b, h, i, j) is the raw head-d dot product of query row
i and key row j scaled by sc(S/H) * sc(S/H), i.e. each operand was scaled
by (width/headCount)^-0.25 before the product; and the attention output is
the softmax over the key dimension (length k.d1) of the score rows,
multiplied by the value rows. -/
theorem c9_attend_contract (S H : Nat) (p : MHAParams)
    (sm : Nat → (Nat → ℚ) → Nat → ℚ) (sc : Nat → ℚ)
    (x : Tensor3) (xa : Option Tensor3) (mask : Option Tensor4)
    (hx : x.d2 = S) (hH : H ∣ S) :
    ((MultiHeadAttention.call sm sc (MultiHeadAttention.init S H p) x xa mask).d0 = x.d0
      ∧ (MultiHeadAttention.call sm sc (MultiHeadAttention.init S H p) x xa mask).d1 = x.d1
      ∧ (MultiHeadAttention.call sm sc (MultiHeadAttention.init S H p) x xa mask).d2 = x.d2)
    ∧ ((MultiHeadAttention.init S H p).key.bias = none
      ∧ (MultiHeadAttention.init S H p).query.bias = some p.qb
      ∧ (MultiHeadAttention.init S H p).value.bias = some p.vb)
    ∧ (∀ q k v : Tensor3, ∀ b h i j : Nat,
        ((MultiHeadAttention.qkv_attention sm sc (MultiHeadAttention.init S H p) q k v none).2).v b h i j
          = sc (q.d2 / H) * sc (q.d2 / H)
              * ∑ d ∈ Finset.range (q.d2 / H),
                  q.v b i (h * (q.d2 / H) + d) * k.v b j (h * (k.d2 / H) + d))
    ∧ (∀ q k v : Tensor3, ∀ b t s : Nat,
        ((MultiHeadAttention.qkv_attention sm sc (MultiHeadAttention.init S H p) q k v none).1).v b t s
          = ∑ j ∈ Finset.range k.d1,
              sm k.d1 (((MultiHeadAttention.qkv_attention sm sc (MultiHeadAttention.init S H p) q k v none).2).v b (s / (v.d2 / H)) t) j
                * v.v b j (s / (v.d2 / H) * (v.d2 / H) + s % (v.d2 / H))) := by
  refine ⟨?_, ⟨rfl, rfl, rfl⟩, ?_, ?_⟩
  · cases mask with
    | none => exact ⟨rfl, rfl, hx.symm⟩
    | some msk => exact ⟨rfl, rfl, hx.symm⟩
  · intro q k v b h i j
    show (∑ d ∈ Finset.range (q.d2 / H),
        (q.v b i (h * (q.d2 / H) + d) * sc (q.d2 / H)) * (k.v b j (h * (k.d2 / H) + d) * sc (q.d2 / H))) = _
    rw [Finset.mul_sum]
    refine Finset.sum_congr rfl ?_
    intro d _
    ring
  · intro q k v b t s
    rfl

/-- Witness for c9_attend_contract at S = 2, H = 1 with zero weights. -/
theorem c9_attend_contract_witness :
    (cxT.d2 = 2 ∧ 1 ∣ 2)
    ∧ (((MultiHeadAttention.call (fun _ f => f) (fun _ => 1) (MultiHeadAttention.init 2 1 cpP) cxT none none).d0 = cxT.d0
      ∧ (MultiHeadAttention.call (fun _ f => f) (fun _ => 1) (MultiHeadAttention.init 2 1 cpP) cxT none none).d1 = cxT.d1
      ∧ (MultiHeadAttention.call (fun _ f => f) (fun _ => 1) (MultiHeadAttention.init 2 1 cpP) cxT none none).d2 = cxT.d2)
    ∧ ((MultiHeadAttention.init 2 1 cpP).key.bias = none
      ∧ (MultiHeadAttention.init 2 1 cpP).query.bias = some cpP.qb
      ∧ (MultiHeadAttention.init 2 1 cpP).value.bias = some cpP.vb)
    ∧ (∀ q k v : Tensor3, ∀ b h i j : Nat,
        ((MultiHeadAttention.qkv_attention (fun _ f => f) (fun _ => 1) (MultiHeadAttention.init 2 1 cpP) q k v none).2).v b h i j
          = (fun _ => (1 : ℚ)) (q.d2 / 1) * (fun _ => (1 : ℚ)) (q.d2 / 1)
              * ∑ d ∈ Finset.range (q.d2 / 1),
                  q.v b i (h * (q.d2 / 1) + d) * k.v b j (h * (k.d2 / 1) + d))
    ∧ (∀ q k v : Tensor3, ∀ b t s : Nat,
        ((MultiHeadAttention.qkv_attention (fun _ f => f) (fun _ => 1) (MultiHeadAttention.init 2 1 cpP) q k v none).1).v b t s
          = ∑ j ∈ Finset.range k.d1,
              (fun _ (f : Nat → ℚ) => f) k.d1 (((MultiHeadAttention.qkv_attention (fun _ f => f) (fun _ => 1) (MultiHeadAttention.init 2 1 cpP) q k v none).2).v b (s / (v.d2 / 1)) t) j
                * v.v b j (s / (v.d2 / 1) * (v.d2 / 1) + s % (v.d2 / 1)))) :=
  ⟨⟨rfl, by decide⟩,
    c9_attend_contract 2 1 cpP (fun _ f => f) (fun _ => 1) cxT none none rfl (by decide)⟩

/-- decodeStep written as one conditional on the loop-exit boolean. -/
theorem decodeStep_eq (E : LoopEnv) (s : PhraseState) :
    decodeStep E s =
      if stepCond E s then
        ⟨s.lst ++ [nextTok E s.lst], E.encDecode (s.lst ++ [nextTok E s.lst]), true, none, s.k + 1⟩
      else
        ⟨s.lst ++ [nextTok E s.lst], E.encDecode (s.lst ++ [nextTok E s.lst]), false, s.last_sample, s.k + 1⟩ :=
  rfl

/-- Each decode step extends the TokenSequence by exactly the next argmax
token, on both sides of the loop-exit check. -/
theorem decodeStep_lst (E : LoopEnv) (s : PhraseState) :
    (decodeStep E s).lst = s.lst ++ [nextTok E s.lst] := by
  rw [decodeStep_eq]
  split <;> rfl

/-- Each decode step leaves text equal to the tokenizer decoding of the
full extended TokenSequence. -/
theorem decodeStep_text (E : LoopEnv) (s : PhraseState) :
    (decodeStep E s).text = E.encDecode ((decodeStep E s).lst) := by
  rw [decodeStep_eq]
  split <;> rfl

/-- The completion flag after a step is exactly the loop-exit boolean. -/
theorem decodeStep_complete (E : LoopEnv) (s : PhraseState) :
    (decodeStep E s).phrase_complete = stepCond E s := by
  rw [decodeStep_eq]
  by_cases h : stepCond E s
  · rw [if_pos h, h]
  · rw [if_neg h]
    exact (Bool.not_eq_true _).mp (fun hc => h hc) |>.symm ▸ rfl

/-- A step that completes the phrase clears the raw-sample buffer. -/
theorem decodeStep_complete_none (E : LoopEnv) (s : PhraseState)
    (h : (decodeStep E s).phrase_complete = true) :
    (decodeStep E s).last_sample = none := by
  rw [decodeStep_eq] at h ⊢
  by_cases hc : stepCond E s
  · rw [if_pos hc]
  · rw [if_neg hc] at h
    exact absurd h (by simp)

/-- Iterating the step function commutes: n+1 steps are one step after n
steps. -/
theorem decodeSteps_succ (E : LoopEnv) :
    ∀ (n : Nat) (s : PhraseState),
      decodeSteps E (n + 1) s = decodeStep E (decodeSteps E n s) := by
  intro n
  induction n with
  | zero => intro s; rfl
  | succ m ih =>
      intro s
      show decodeSteps E (m + 1) (decodeStep E s) = _
      rw [ih (decodeStep E s)]
      rfl

/-- A completed state is a fixed point of the guarded loop. -/
theorem phraseLoop_fix (E : LoopEnv) :
    ∀ (fuel : Nat) (s : PhraseState), s.phrase_complete = true →
      phraseLoop E fuel s = s := by
  intro fuel
  cases fuel with
  | zero => intro s _; rfl
  | succ n => intro s h; simp [phraseLoop, h]

/-- When the guarded loop ends with the phrase complete, the raw-sample
buffer was cleared by the completing step. -/
theorem phraseLoop_last_sample (E : LoopEnv) :
    ∀ (fuel : Nat) (s : PhraseState), s.phrase_complete = false →
      (phraseLoop E fuel s).phrase_complete = true →
      (phraseLoop E fuel s).last_sample = none := by
  intro fuel
  induction fuel with
  | zero =>
      intro s h1 h2
      rw [show phraseLoop E 0 s = s from rfl] at h2
      rw [h1] at h2
      exact absurd h2 (by simp)
  | succ n ih =>
      intro s h1 h2
      have hstep : phraseLoop E (n + 1) s = phraseLoop E n (decodeStep E s) := by
        simp [phraseLoop, h1]
      rw [hstep] at h2 ⊢
      by_cases hc : (decodeStep E s).phrase_complete = true
      · rw [phraseLoop_fix E n _ hc] at h2 ⊢
        exact decodeStep_complete_none E s hc
      · exact ih (decodeStep E s) (Bool.not_eq_true _ |>.mp hc) h2

/-- C7: for every phrase the TokenSequence starts as the single
start-of-transcript token; nextTok is the argmax over the last position's
logits of the full-prefix decoder call; each decode step appends exactly
that one token, leaving the existing prefix unaltered; and after k steps
the TokenSequence has length k + 1. -/
theorem c7_token_sequence (E : LoopEnv) (prevText : List Char)
    (buf : Option (List Nat)) :
    (phraseInit E prevText buf).lst = [E.sot]
    ∧ (∀ lst : List Nat, nextTok E lst
        = argmaxIdx E.dcd.token_embedding.n_vocab
            (fun u =>
              (TextDecoder.call E.sm E.sc E.geluQ E.negInf E.dcd (tokTensor lst) E.encoded_audio).v
                0 (lst.length - 1) u))
    ∧ (∀ s : PhraseState, (decodeStep E s).lst = s.lst ++ [nextTok E s.lst])
    ∧ (∀ n : Nat, (decodeSteps E (n + 1) (phraseInit E prevText buf)).lst
        = (decodeSteps E n (phraseInit E prevText buf)).lst
            ++ [nextTok E (decodeSteps E n (phraseInit E prevText buf)).lst])
    ∧ (∀ n : Nat, (decodeSteps E n (phraseInit E prevText buf)).lst.length = n + 1) := by
  refine ⟨rfl, fun _ => rfl, decodeStep_lst E, ?_, ?_⟩
  · intro n
    rw [decodeSteps_succ E n (phraseInit E prevText buf)]
    exact decodeStep_lst E _
  · intro n
    induction n with
    | zero => rfl
    | succ m ih =>
        rw [decodeSteps_succ E m (phraseInit E prevText buf), decodeStep_lst E _,
          List.length_append, ih]
        rfl

/-- C6: the decode loop runs while phrase_complete is false and a completed
state is a fixed point, so it terminates exactly when the per-step check —
wall-clock time since phrase_time exceeding phrase_timeout, or the decoded
text containing the end-of-transcript marker — fires; the check is
evaluated exactly once per emitted token (each step appends one token and
sets phrase_complete to exactly the check's value). -/
theorem c6_loop_termination (E : LoopEnv) :
    (∀ (fuel : Nat) (s : PhraseState),
      phraseLoop E (fuel + 1) s = if s.phrase_complete then s else phraseLoop E fuel (decodeStep E s))
    ∧ (∀ s : PhraseState, (decodeStep E s).phrase_complete
        = (decide (E.phrase_timeout < E.timeAt s.k - E.phrase_time)
            || containsSub eotText (E.encDecode (s.lst ++ [nextTok E s.lst]))))
    ∧ (∀ s : PhraseState, (decodeStep E s).lst.length = s.lst.length + 1)
    ∧ (∀ (fuel : Nat) (s : PhraseState),
        phraseLoop E fuel ⟨s.lst, s.text, true, s.last_sample, s.k⟩
          = ⟨s.lst, s.text, true, s.last_sample, s.k⟩) := by
  refine ⟨fun _ _ => rfl, decodeStep_complete E, ?_, ?_⟩
  · intro s
    rw [decodeStep_lst E s, List.length_append]
    rfl
  · intro fuel s
    exact phraseLoop_fix E fuel _ rfl

/-- Writing into the last slot of a nonempty list makes that value the last
element. -/
theorem getLastD_set_last {α : Type} :
    ∀ (l : List α) (a d : α), l ≠ [] → (l.set (l.length - 1) a).getLastD d = a := by
  intro l
  induction l with
  | nil => intro a d h; exact absurd rfl h
  | cons x xs ih =>
      intro a d _
      cases xs with
      | nil => rfl
      | cons y ys =>
          have h1 : (x :: y :: ys).length - 1 = ys.length + 1 := by simp
          rw [h1, List.set_cons_succ, List.getLastD_cons]
          have h2 : (y :: ys).length - 1 = ys.length := by simp
          have h3 := ih a x (by simp)
          rw [h2] at h3
          exact h3

/-- argmax over a one-entry vocabulary is index 0 (by ite_self, with no
rational arithmetic evaluated). -/
theorem argmaxIdx_one (f : Nat → ℚ) : argmaxIdx 1 f = 0 := by
  have h : List.range 1 = [0] := rfl
  simp [argmaxIdx, h]

/-- Every decode step of environment A emits token 0 (one-token
vocabulary). -/
theorem nextTok_envA (lst : List Nat) : nextTok envA lst = 0 :=
  argmaxIdx_one _

/-- Every decode step of environment B emits token 0. -/
theorem nextTok_envB (lst : List Nat) : nextTok envB lst = 0 :=
  argmaxIdx_one _

/-- Every decode step of environment C emits token 0. -/
theorem nextTok_envC (lst : List Nat) : nextTok envC lst = 0 :=
  argmaxIdx_one _

/-- In environment A the timeout test never fires (1 < 0 - 0 is false). -/
theorem timeoutCheck_envA (k : Nat) :
    decide (envA.phrase_timeout < envA.timeAt k - envA.phrase_time) = false :=
  decide_eq_false (by
    show ¬ ((1 : ℚ) < 0 - 0)
    norm_num)

/-- In environment B the timeout test never fires. -/
theorem timeoutCheck_envB (k : Nat) :
    decide (envB.phrase_timeout < envB.timeAt k - envB.phrase_time) = false :=
  decide_eq_false (by
    show ¬ ((1 : ℚ) < 0 - 0)
    norm_num)

/-- In environment C the timeout test fires at every check (1 < 10 - 0). -/
theorem timeoutCheck_envC (k : Nat) :
    decide (envC.phrase_timeout < envC.timeAt k - envC.phrase_time) = true :=
  decide_eq_true (by
    show (1 : ℚ) < 10 - 0
    norm_num)

/-- The first loop-exit check of environment A does not fire. -/
theorem stepCond_envA_s0 : stepCond envA (phraseInit envA [] none) = false := by
  unfold stepCond
  rw [timeoutCheck_envA, nextTok_envA]
  decide

/-- The first loop-exit check of environment B fires (marker decoded). -/
theorem stepCond_envB_s0 : stepCond envB (phraseInit envB [] none) = true := by
  unfold stepCond
  rw [timeoutCheck_envB, nextTok_envB]
  decide

/-- The first loop-exit check of environment C fires (timeout). -/
theorem stepCond_envC_s0 : stepCond envC (phraseInit envC [] none) = true := by
  unfold stepCond
  rw [timeoutCheck_envC]
  rfl

/-- The first decode step of environment A: token 0 appended, text "a",
phrase still open. -/
theorem decodeStep_envA_s0 :
    decodeStep envA (phraseInit envA [] none) = ⟨[5, 0], ['a'], false, none, 1⟩ := by
  rw [decodeStep_eq, stepCond_envA_s0, nextTok_envA]
  rfl

/-- The first decode step of environment B: phrase completes with the
end-of-transcript text. -/
theorem decodeStep_envB_s0 :
    decodeStep envB (phraseInit envB [] none) = ⟨[5, 0], eotText, true, none, 1⟩ := by
  rw [decodeStep_eq, stepCond_envB_s0, nextTok_envB]
  rfl

/-- The first decode step of environment C: phrase completes by timeout
with text "a". -/
theorem decodeStep_envC_s0 :
    decodeStep envC (phraseInit envC [] none) = ⟨[5, 0], ['a'], true, none, 1⟩ := by
  rw [decodeStep_eq, stepCond_envC_s0, nextTok_envC]
  rfl

/-- Environment B's guarded loop completes after its first step. -/
theorem phraseLoop_envB_run :
    phraseLoop envB 5 (phraseInit envB [] none) = ⟨[5, 0], eotText, true, none, 1⟩ := by
  have h1 : phraseLoop envB 5 (phraseInit envB [] none)
      = phraseLoop envB 4 (decodeStep envB (phraseInit envB [] none)) := rfl
  rw [h1, decodeStep_envB_s0]
  exact phraseLoop_fix envB 4 _ rfl

/-- Environment C's guarded loop completes after its first step. -/
theorem phraseLoop_envC_run :
    phraseLoop envC 5 (phraseInit envC [] none) = ⟨[5, 0], ['a'], true, none, 1⟩ := by
  have h1 : phraseLoop envC 5 (phraseInit envC [] none)
      = phraseLoop envC 4 (decodeStep envC (phraseInit envC [] none)) := rfl
  rw [h1, decodeStep_envC_s0]
  exact phraseLoop_fix envC 4 _ rfl

/-- Environment A's loop, interrupted at check index 1, stops after one
step with the phrase open. -/
theorem phraseLoopIntr_envA_run :
    phraseLoopIntr envA (fun k => decide (k = 1)) 5 (phraseInit envA [] none)
      = ⟨[5, 0], ['a'], false, none, 1⟩ := by
  have h1 : phraseLoopIntr envA (fun k => decide (k = 1)) 5 (phraseInit envA [] none)
      = phraseLoopIntr envA (fun k => decide (k = 1)) 4
          (decodeStep envA (phraseInit envA [] none)) := rfl
  rw [h1, decodeStep_envA_s0]
  rfl

/-- Counterexample to C1: in the concrete environment envA, after the first
decode step the phrase is still open, yet the Transcript's last entry is
still the initial empty string and differs from the tokenizer decoding of
the current two-token TokenSequence — the loop body never writes the
per-step text into the Transcript (it only prints it). -/
theorem c1_counterexample :
    (fullStep envA ⟨phraseInit envA [] none, [[]]⟩).ps.phrase_complete = false
    ∧ (fullStep envA ⟨phraseInit envA [] none, [[]]⟩).transcription.getLastD ['x']
        ≠ envA.encDecode ((fullStep envA ⟨phraseInit envA [] none, [[]]⟩).ps.lst) := by
  have h : fullStep envA ⟨phraseInit envA [] none, [[]]⟩
      = ⟨⟨[5, 0], ['a'], false, none, 1⟩, [[]]⟩ := by
    show (⟨decodeStep envA (phraseInit envA [] none), [[]]⟩ : FullState) = _
    rw [decodeStep_envA_s0]
  rw [h]
  exact ⟨rfl, by decide⟩

/-- C1 as amended: the loop body leaves the Transcript unchanged at every
decode step; after any positive number of steps the state's text equals
the tokenizer decoding of the full current TokenSequence; and that text
reaches the Transcript only through the post-loop commit, which overwrites
the last entry when the phrase is not complete and appends a new entry
when it is. -/
theorem c1_amended_transcript (E : LoopEnv) :
    (∀ s : FullState, (fullStep E s).transcription = s.transcription)
    ∧ (∀ (n : Nat) (s0 : PhraseState),
        (decodeSteps E (n + 1) s0).text = E.encDecode ((decodeSteps E (n + 1) s0).lst))
    ∧ (∀ (transcription : List (List Char)) (s : PhraseState),
        commitTranscript transcription s
          = if s.phrase_complete then transcription ++ [s.text]
            else updateLast transcription s.text) := by
  refine ⟨fun _ => rfl, ?_, fun _ _ => rfl⟩
  intro n
  induction n with
  | zero => intro s0; exact decodeStep_text E s0
  | succ m ih =>
      intro s0
      rw [decodeSteps_succ E (m + 1) s0]
      exact decodeStep_text E _

/-- Counterexample to C2: in the concrete environment envB the phrase
completes on the first step (end-of-transcript marker decoded), and the
post-loop commit appends the phrase text itself — the resulting Transcript
is ['', '<|endoftext|>'], whose new last entry is the committed text, not
a new empty entry. -/
theorem c2_counterexample :
    (phraseLoop envB 5 (phraseInit envB [] none)).phrase_complete = true
    ∧ commitTranscript [[]] (phraseLoop envB 5 (phraseInit envB [] none)) = [[], eotText]
    ∧ (commitTranscript [[]] (phraseLoop envB 5 (phraseInit envB [] none))).getLastD ['x']
        ≠ ([] : List Char) := by
  rw [phraseLoop_envB_run]
  exact ⟨rfl, rfl, by decide⟩

/-- C2 as amended: whenever the decode loop exits with the phrase complete,
the Transcript gains exactly one new entry holding the committed phrase's
text (no empty entry is opened), the raw-sample buffer has been reset to
empty by the completing step, and the TokenSequence is re-initialized to
the single start-of-transcript token when the next phrase begins. -/
theorem c2_amended_commit (E : LoopEnv) (fuel : Nat) (prevText : List Char)
    (buf buf2 : Option (List Nat)) (prevText2 : List Char)
    (transcription : List (List Char))
    (h : (phraseLoop E fuel (phraseInit E prevText buf)).phrase_complete = true) :
    commitTranscript transcription (phraseLoop E fuel (phraseInit E prevText buf))
      = transcription ++ [(phraseLoop E fuel (phraseInit E prevText buf)).text]
    ∧ (phraseLoop E fuel (phraseInit E prevText buf)).last_sample = none
    ∧ (phraseInit E prevText2 buf2).lst = [E.sot] := by
  refine ⟨by simp [commitTranscript, h], ?_, rfl⟩
  exact phraseLoop_last_sample E fuel (phraseInit E prevText buf) rfl h

/-- Witness for c2_amended_commit on the concrete completing run envB. -/
theorem c2_amended_commit_witness :
    (phraseLoop envB 5 (phraseInit envB [] none)).phrase_complete = true
    ∧ (commitTranscript [] (phraseLoop envB 5 (phraseInit envB [] none))
          = [] ++ [(phraseLoop envB 5 (phraseInit envB [] none)).text]
      ∧ (phraseLoop envB 5 (phraseInit envB [] none)).last_sample = none
      ∧ (phraseInit envB [] none).lst = [envB.sot]) :=
  ⟨by rw [phraseLoop_envB_run],
    c2_amended_commit envB 5 [] none none [] [] (by rw [phraseLoop_envB_run])⟩

/-- Counterexample to C8: with the same decoded text "a", an interrupt
after the first token (environment envA, interrupt at check index 1)
leaves the Transcript as ['a'] — the open entry overwritten in place —
while the phrase timeout firing (environment envC, identical tokenizer)
produces ['', 'a']: the interrupt exit does not behave as if the phrase
timeout had fired. -/
theorem c8_counterexample :
    commitTranscript [[]]
        (phraseLoopIntr envA (fun k => decide (k = 1)) 5 (phraseInit envA [] none))
      ≠ commitTranscript [[]] (phraseLoop envC 5 (phraseInit envC [] none)) := by
  rw [phraseLoopIntr_envA_run, phraseLoop_envC_run]
  decide

/-- C8 as amended: an interrupt arriving at a token boundary of an open
phrase stops the loop with the state unchanged (no further token, buffer
kept); the post-loop commit then overwrites the Transcript's last (open)
entry with the text decoded so far — unlike the timeout path, which
appends it as a new entry — so the Transcript keeps its length and its
last entry is exactly that text (never a half-written state). -/
theorem c8_amended_interrupt (E : LoopEnv) (intr : Nat → Bool) (fuel : Nat)
    (s : PhraseState) (transcription : List (List Char)) (t : List Char)
    (h1 : s.phrase_complete = false) (h2 : intr s.k = true)
    (h3 : transcription ≠ []) :
    phraseLoopIntr E intr (fuel + 1) s = s
    ∧ commitTranscript transcription s = updateLast transcription s.text
    ∧ (updateLast transcription t).length = transcription.length
    ∧ (updateLast transcription t).getLastD [] = t := by
  refine ⟨by simp [phraseLoopIntr, h1, h2], by simp [commitTranscript, h1],
    by simp [updateLast], ?_⟩
  exact getLastD_set_last transcription t [] h3

/-- Witness for c8_amended_interrupt: interrupt at the very first token
boundary of envA's phrase. -/
theorem c8_amended_interrupt_witness :
    ((phraseInit envA [] none).phrase_complete = false
      ∧ (fun k => decide (k = 0)) (phraseInit envA [] none).k = true
      ∧ ([[], ['b']] : List (List Char)) ≠ [])
    ∧ (phraseLoopIntr envA (fun k => decide (k = 0)) (4 + 1) (phraseInit envA [] none)
          = phraseInit envA [] none
      ∧ commitTranscript [[], ['b']] (phraseInit envA [] none)
          = updateLast [[], ['b']] (phraseInit envA [] none).text
      ∧ (updateLast [[], ['b']] (['a'] : List Char)).length = ([[], ['b']] : List (List Char)).length
      ∧ (updateLast [[], ['b']] (['a'] : List Char)).getLastD [] = ['a']) :=
  ⟨⟨rfl, rfl, by decide⟩,
    c8_amended_interrupt envA (fun k => decide (k = 0)) 4 (phraseInit envA [] none)
      [[], ['b']] ['a'] rfl rfl (by decide)⟩
